import Mathlib

/-!
Verification of the device topology and occupancy model of the
furiosa-ai/device-api C binding surface (`cbinding/include/device.h` and the
legacy `bindings/c/include/device.h`).

The repository ships only the C declarations and example callers; the
operations themselves live behind the FFI boundary.  Every operation below is
therefore modelled from the specification of the Device Topology & Occupancy
Model: devices, cores, core ranges, device files, the occupancy resolver, the
registry and the error taxonomy.  Machine integers (`uint8_t` indices and
lengths) are modelled as `Nat`; fallible calls return `Except error_code`.
-/

/-- Modelled from the spec: the NPU architecture enumeration of
`cbinding/include/device.h` (`warboy_a0`, `warboy`, `renegade`, `u250`). -/
inductive Arch
  | warboy_a0
  | warboy
  | renegade
  | u250
  deriving DecidableEq

/-- Numeric value of each `Arch` constructor in the C enum (declaration order). -/
def Arch.code : Arch → Nat
  | .warboy_a0 => 0
  | .warboy => 1
  | .renegade => 2
  | .u250 => 3

/-- Modelled from the spec: a core range is either `All` (the full core set of the device) or an inclusive `Range(start, end)`. -/
inductive CoreRange
  | all
  | range (start end_ : Nat)
  deriving DecidableEq

/-- Modelled from the spec: per-core occupancy status. -/
inductive CoreStatus
  | available
  | occupied
  | unavailable
  deriving DecidableEq

/-- Numeric value of each `CoreStatus` constructor in the C enum. -/
def CoreStatus.code : CoreStatus → Nat
  | .available => 0
  | .occupied => 1
  | .unavailable => 2

/-- Modelled from the spec: the operating mode of a device file. -/
inductive DeviceMode
  | single
  | fusion
  | multi_core
  deriving DecidableEq

/-- Modelled from the spec: the `error_code` return status enumeration of the
C binding, in declaration order. -/
inductive error_code
  | ok
  | invalid_input
  | null_error
  | unsupported_error
  | unavailable_error
  | device_not_found
  | device_busy
  | io_error
  | permission_denied_error
  | unknown_arch_error
  | incompatible_driver_error
  | hwmon_error
  | performance_counter_error
  | unexpected_value_error
  | parse_error
  | unknown_error
  deriving DecidableEq

/-- Modelled from the spec: a device file — a filesystem path exposing a core
range of its owning device under an operating mode. -/
structure DeviceFile where
  device_index : Nat
  core_range : CoreRange
  path : String
  mode : DeviceMode
  deriving DecidableEq

/-- Modelled from the spec: one physical device — index, architecture,
liveness flag, the §4.2 descriptor attributes (name, serial number, UUID,
firmware and driver version, PCI bus number and device id, heartbeat
counter), dense core count, optional NUMA node (absent when the platform
does not expose one), insertion-ordered error-state counters, and the device
files registered for it. -/
structure Device where
  index : Nat
  arch : Arch
  alive : Bool
  name : String
  serial_number : String
  uuid : String
  firmware_version : String
  driver_version : String
  pci_bus_number : String
  pci_dev_id : String
  heartbeat : Nat
  core_num : Nat
  numa_node : Option Nat
  error_states : List (String × Nat)
  files : List DeviceFile
  deriving DecidableEq

/-- Modelled from the spec: a snapshot of the Topology Source — whether the
source is reachable, the enumerated live devices, and which device-file paths
are currently lock-held, each with the descriptor identifier of the holder. -/
structure TopologySource where
  reachable : Bool
  devices : List Device
  locks : List (String × String)
  deriving DecidableEq

/-- The descriptor identifier currently holding the lock on a device-file
path, if any, as reported by the Topology Source snapshot. -/
def lockHolder (src : TopologySource) (path : String) : Option String :=
  (src.locks.find? (fun pr => pr.1 == path)).map (fun pr => pr.2)

/-- Executable membership of a core index in a core range (`all` means the
full core set `[0, core_num)`; `range` is inclusive on both ends). -/
def coreRangeContains (core_num : Nat) : CoreRange → Nat → Bool
  | .all, c => c < core_num
  | .range s e, c => s ≤ c && c ≤ e

/-- Declarative membership of a core index in a core range. -/
def CoreRangeContains (core_num : Nat) : CoreRange → Nat → Prop
  | .all, c => c < core_num
  | .range s e, c => s ≤ c ∧ c ≤ e

instance (n : Nat) (r : CoreRange) (c : Nat) : Decidable (CoreRangeContains n r c) :=
  match r with
  | .all => inferInstanceAs (Decidable (c < n))
  | .range s e => inferInstanceAs (Decidable (s ≤ c ∧ c ≤ e))

theorem coreRangeContains_iff (n : Nat) (r : CoreRange) (c : Nat) :
    coreRangeContains n r c = true ↔ CoreRangeContains n r c := by
  cases r <;> simp [coreRangeContains, CoreRangeContains]

/-- Executable test that device file `f` belongs to device `d` and its core
range contains core `c`. -/
def coversCore (d : Device) (f : DeviceFile) (c : Nat) : Bool :=
  f.device_index == d.index && coreRangeContains d.core_num f.core_range c

/-- Declarative form of `coversCore`. -/
def CoversCore (d : Device) (f : DeviceFile) (c : Nat) : Prop :=
  f.device_index = d.index ∧ CoreRangeContains d.core_num f.core_range c

instance (d : Device) (f : DeviceFile) (c : Nat) : Decidable (CoversCore d f c) :=
  inferInstanceAs (Decidable (_ ∧ _))

theorem coversCore_iff (d : Device) (f : DeviceFile) (c : Nat) :
    coversCore d f c = true ↔ CoversCore d f c := by
  simp [coversCore, CoversCore, coreRangeContains_iff]

/-- Modelled from the spec: a core is lock-held when some device file of the
device whose range contains the core is currently held per the snapshot. -/
def coreLocked (src : TopologySource) (d : Device) (c : Nat) : Bool :=
  d.files.any (fun f => coversCore d f c && (lockHolder src f.path).isSome)

/-- Modelled from the spec: the per-core transition rule of the occupancy resolver —
not alive ⇒ `unavailable`; else lock-held ⇒ `occupied`; else `available`. -/
def coreStatusOf (src : TopologySource) (d : Device) (c : Nat) : CoreStatus :=
  if !d.alive then .unavailable
  else if coreLocked src d c then .occupied
  else .available

/-- Modelled from the spec: `furiosa_device_core_status_get` — the per-core
status query; a core index outside `[0, core_num)` is rejected as invalid
input. -/
def furiosa_device_core_status_get (src : TopologySource) (d : Device) (c : Nat) :
    Except error_code CoreStatus :=
  if c < d.core_num then .ok (coreStatusOf src d c) else .error .invalid_input

theorem coreLocked_iff (src : TopologySource) (d : Device) (c : Nat) :
    coreLocked src d c = true ↔
      ∃ f ∈ d.files, CoversCore d f c ∧ (lockHolder src f.path).isSome := by
  simp only [coreLocked, List.any_eq_true, Bool.and_eq_true, coversCore_iff]

/-- C1: for every device `d` and core `c ∈ [0, coreCount d)`, the per-core
status query implements the occupancy transition rule: liveness false gives
`unavailable` for every core; otherwise a lock-held covering device file gives
`occupied`; otherwise `available`. -/
theorem core_status_transition_rule (src : TopologySource) (d : Device) (c : Nat)
    (hc : c < d.core_num) :
    (d.alive = false → furiosa_device_core_status_get src d c = .ok .unavailable) ∧
    (d.alive = true →
      ((∃ f ∈ d.files, CoversCore d f c ∧ (lockHolder src f.path).isSome) →
        furiosa_device_core_status_get src d c = .ok .occupied) ∧
      ((∀ f ∈ d.files, ¬ (CoversCore d f c ∧ (lockHolder src f.path).isSome)) →
        furiosa_device_core_status_get src d c = .ok .available)) := by
  refine ⟨fun hdead => ?_, fun halive => ⟨fun hocc => ?_, fun hfree => ?_⟩⟩
  · simp [furiosa_device_core_status_get, hc, coreStatusOf, hdead]
  · have hlocked : coreLocked src d c = true := (coreLocked_iff src d c).mpr hocc
    simp [furiosa_device_core_status_get, hc, coreStatusOf, halive, hlocked]
  · have hlocked : coreLocked src d c = false := by
      rw [← Bool.not_eq_true, coreLocked_iff]
      rintro ⟨f, hf, hcov⟩
      exact hfree f hf hcov
    simp [furiosa_device_core_status_get, hc, coreStatusOf, halive, hlocked]

/-- The `Single` device file `npu0pe0` of the §8 scenario topology. -/
def npu0pe0 : DeviceFile :=
  { device_index := 0, core_range := .range 0 0, path := "npu0pe0", mode := .single }

/-- The `Fusion` device file `npu0pe1-2` of the §8 scenario topology. -/
def npu0pe1_2 : DeviceFile :=
  { device_index := 0, core_range := .range 1 2, path := "npu0pe1-2", mode := .fusion }

/-- The `MultiCore` device file `npu0` of the §8 scenario topology. -/
def npu0file : DeviceFile :=
  { device_index := 0, core_range := .all, path := "npu0", mode := .multi_core }

/-- The §8 scenario device: `npu0`, 4 cores, one `Single`, one `Fusion` and
one `MultiCore` device file. -/
def npu0 : Device :=
  { index := 0, arch := .warboy, alive := true,
    name := "npu0", serial_number := "WBYB0000", uuid := "10g2x-npu0",
    firmware_version := "1.6.0", driver_version := "1.9.2",
    pci_bus_number := "0000:01", pci_dev_id := "0x1111", heartbeat := 42,
    core_num := 4, numa_node := some 0,
    error_states := [("axi_post_error_count", 0)],
    files := [npu0pe0, npu0pe1_2, npu0file] }

/-- A copy of the scenario device whose liveness flag is down. -/
def deadNpu0 : Device := { npu0 with alive := false }

/-- The §8 scenario Topology Source snapshot: `npu0pe1-2` is lock-held by the
process descriptor `pid:1234`. -/
def scenarioSource : TopologySource :=
  { reachable := true, devices := [npu0], locks := [("npu0pe1-2", "pid:1234")] }

/-- C1 witness: on the §8 scenario, core 1 is occupied, core 0 is available,
and every core of the non-alive copy is unavailable. -/
theorem core_status_transition_rule_witness :
    furiosa_device_core_status_get scenarioSource npu0 1 = .ok .occupied ∧
    furiosa_device_core_status_get scenarioSource npu0 0 = .ok .available ∧
    furiosa_device_core_status_get scenarioSource deadNpu0 2 = .ok .unavailable := by
  refine ⟨?_, ?_, ?_⟩
  · exact ((core_status_transition_rule scenarioSource npu0 1 (by decide)).2 rfl).1
      ⟨npu0pe1_2, by decide, by decide, by decide⟩
  · exact ((core_status_transition_rule scenarioSource npu0 0 (by decide)).2 rfl).2
      (by decide)
  · exact (core_status_transition_rule scenarioSource deadNpu0 2 (by decide)).1 rfl

/-- Decoded value of a list of decimal digit characters, most significant
digit first. -/
def decodeDigits (l : List Char) : Nat :=
  l.foldl (fun a c => 10 * a + (c.toNat - 48)) 0

/-- Modelled from the spec: parse the part of a device-file name that follows
`npu<index>` — empty for the whole-device `MultiCore` file, `pe<core>` for a
`Single` file, `pe<start>-<end>` with `start < end` for a `Fusion` file. -/
def parseCoreSpec (cs : List Char) : Option (CoreRange × DeviceMode) :=
  match cs with
  | [] => some (.all, .multi_core)
  | 'p' :: 'e' :: rest =>
    if (rest.takeWhile Char.isDigit).isEmpty then none
    else
      match rest.dropWhile Char.isDigit with
      | [] =>
        some (.range (decodeDigits (rest.takeWhile Char.isDigit))
          (decodeDigits (rest.takeWhile Char.isDigit)), .single)
      | '-' :: ds2 =>
        if ds2.isEmpty then none
        else if ds2.all Char.isDigit then
          if decodeDigits (rest.takeWhile Char.isDigit) < decodeDigits ds2 then
            some (.range (decodeDigits (rest.takeWhile Char.isDigit))
              (decodeDigits ds2), .fusion)
          else none
        else none
      | _ => none
  | _ => none

/-- Modelled from the spec: parse a device-file name, as a character list,
into its `(device_index, core_range, mode)` triple — `npu<index>`,
`npu<index>pe<core>`, `npu<index>pe<start>-<end>`; malformed input is
`invalid_input`. -/
def parseDeviceNameChars (cs : List Char) : Except error_code (Nat × CoreRange × DeviceMode) :=
  match cs with
  | 'n' :: 'p' :: 'u' :: rest =>
    if (rest.takeWhile Char.isDigit).isEmpty then .error .invalid_input
    else
      match parseCoreSpec (rest.dropWhile Char.isDigit) with
      | some (r, m) => .ok (decodeDigits (rest.takeWhile Char.isDigit), r, m)
      | none => .error .invalid_input
  | _ => .error .invalid_input

/-- Modelled from the spec: the device-file naming-grammar parser backing
`furiosa_device_get_by_filename`; the resulting `DeviceFile` carries the
parsed triple and the given name as its path. -/
def parseDeviceName (s : String) : Except error_code DeviceFile :=
  match parseDeviceNameChars s.toList with
  | .ok (i, r, m) => .ok { device_index := i, core_range := r, path := s, mode := m }
  | .error e => .error e

/-- Modelled from the spec: `furiosa_device_get_by_filename` — parse the name
under the grammar, then resolve it against the topology snapshot; a
well-formed name whose device index does not exist is `device_not_found`. -/
def furiosa_device_get_by_filename (src : TopologySource) (name : String) :
    Except error_code DeviceFile :=
  match parseDeviceName name with
  | .error e => .error e
  | .ok df =>
    if src.devices.any (fun d => d.index == df.device_index) then .ok df
    else .error .device_not_found

/-- The §6 device-file naming grammar, declaratively: which character lists
are well-formed names and which `(device_index, core_range, mode)` triple a
well-formed name denotes. -/
inductive MatchesGrammar : List Char → Nat → CoreRange → DeviceMode → Prop
  | multi (ds : List Char) (hne : ds ≠ []) (hdig : ∀ c ∈ ds, c.isDigit = true) :
      MatchesGrammar ('n' :: 'p' :: 'u' :: ds) (decodeDigits ds) .all .multi_core
  | single (ds pe : List Char) (hne : ds ≠ []) (hdig : ∀ c ∈ ds, c.isDigit = true)
      (hne2 : pe ≠ []) (hdig2 : ∀ c ∈ pe, c.isDigit = true) :
      MatchesGrammar ('n' :: 'p' :: 'u' :: (ds ++ 'p' :: 'e' :: pe))
        (decodeDigits ds) (.range (decodeDigits pe) (decodeDigits pe)) .single
  | fusion (ds a b : List Char) (hne : ds ≠ []) (hdig : ∀ c ∈ ds, c.isDigit = true)
      (hnea : a ≠ []) (hdiga : ∀ c ∈ a, c.isDigit = true)
      (hneb : b ≠ []) (hdigb : ∀ c ∈ b, c.isDigit = true)
      (hlt : decodeDigits a < decodeDigits b) :
      MatchesGrammar ('n' :: 'p' :: 'u' :: (ds ++ 'p' :: 'e' :: (a ++ '-' :: b)))
        (decodeDigits ds) (.range (decodeDigits a) (decodeDigits b)) .fusion

theorem takeWhile_append_eq {α : Type} (p : α → Bool) :
    ∀ (l1 l2 : List α), (∀ c ∈ l1, p c = true) →
      (∀ c, l2.head? = some c → p c = false) →
      (l1 ++ l2).takeWhile p = l1 ∧ (l1 ++ l2).dropWhile p = l2
  | [], l2, _, h2 => by
    cases l2 with
    | nil => simp
    | cons c cs =>
      have hc : p c = false := h2 c rfl
      simp [List.takeWhile_cons, List.dropWhile_cons, hc]
  | x :: xs, l2, h1, h2 => by
    have hx : p x = true := h1 x (List.mem_cons_self x xs)
    have ih := takeWhile_append_eq p xs l2 (fun c hc => h1 c (List.mem_cons_of_mem x hc)) h2
    simp [List.takeWhile_cons, List.dropWhile_cons, hx, ih.1, ih.2]

theorem parseCoreSpec_nil : parseCoreSpec [] = some (.all, .multi_core) := rfl

theorem parseCoreSpec_single (pe : List Char) (hne : pe ≠ [])
    (hdig : ∀ c ∈ pe, c.isDigit = true) :
    parseCoreSpec ('p' :: 'e' :: pe) =
      some (.range (decodeDigits pe) (decodeDigits pe), .single) := by
  have h := takeWhile_append_eq Char.isDigit pe [] hdig (by intro c hc; cases hc)
  rw [List.append_nil] at h
  simp [parseCoreSpec, h.1, h.2, hne]

theorem parseCoreSpec_fusion (a b : List Char) (hnea : a ≠ [])
    (hdiga : ∀ c ∈ a, c.isDigit = true) (hneb : b ≠ [])
    (hdigb : ∀ c ∈ b, c.isDigit = true) (hlt : decodeDigits a < decodeDigits b) :
    parseCoreSpec ('p' :: 'e' :: (a ++ '-' :: b)) =
      some (.range (decodeDigits a) (decodeDigits b), .fusion) := by
  have h := takeWhile_append_eq Char.isDigit a ('-' :: b) hdiga
    (by intro c hc; injection hc with hc; subst hc; decide)
  have hall : b.all Char.isDigit = true := List.all_eq_true.mpr hdigb
  simp [parseCoreSpec, h.1, h.2, hnea, hneb, hall, hlt]

theorem parseCoreSpec_sound (cs : List Char) (r : CoreRange) (m : DeviceMode)
    (h : parseCoreSpec cs = some (r, m)) :
    (cs = [] ∧ r = .all ∧ m = .multi_core) ∨
    (∃ pe, pe ≠ [] ∧ (∀ c ∈ pe, c.isDigit = true) ∧ cs = 'p' :: 'e' :: pe ∧
      r = .range (decodeDigits pe) (decodeDigits pe) ∧ m = .single) ∨
    (∃ a b, a ≠ [] ∧ (∀ c ∈ a, c.isDigit = true) ∧ b ≠ [] ∧
      (∀ c ∈ b, c.isDigit = true) ∧ decodeDigits a < decodeDigits b ∧
      cs = 'p' :: 'e' :: (a ++ '-' :: b) ∧
      r = .range (decodeDigits a) (decodeDigits b) ∧ m = .fusion) := by
  unfold parseCoreSpec at h
  split at h
  · left
    injection h with h
    injection h with h1 h2
    exact ⟨rfl, h1.symm, h2.symm⟩
  case _ rest =>
    split at h
    · exact absurd h (by simp)
    case _ hne =>
      have hds : rest.takeWhile Char.isDigit ≠ [] := by
        simpa using hne
      have hdig : ∀ c ∈ rest.takeWhile Char.isDigit, c.isDigit = true :=
        fun c hc => List.mem_takeWhile_imp hc
      have hsplit : rest.takeWhile Char.isDigit ++ rest.dropWhile Char.isDigit = rest :=
        List.takeWhile_append_dropWhile Char.isDigit rest
      split at h
      case _ hdrop =>
        right; left
        refine ⟨rest.takeWhile Char.isDigit, hds, hdig, ?_, ?_, ?_⟩
        · rw [hdrop, List.append_nil] at hsplit
          rw [hsplit]
        · injection h with h
          injection h with h1 h2
          exact h1.symm
        · injection h with h
          injection h with h1 h2
          exact h2.symm
      case _ ds2 hdrop =>
        split at h
        · exact absurd h (by simp)
        case _ hne2 =>
          split at h
          case _ hall =>
            split at h
            case _ hlt =>
              right; right
              refine ⟨rest.takeWhile Char.isDigit, ds2, hds, hdig, by simpa using hne2,
                fun c hc => List.all_eq_true.mp hall c hc, hlt, ?_, ?_, ?_⟩
              · rw [hdrop] at hsplit
                rw [hsplit]
              · injection h with h
                injection h with h1 h2
                exact h1.symm
              · injection h with h
                injection h with h1 h2
                exact h2.symm
            · exact absurd h (by simp)
          · exact absurd h (by simp)
      · exact absurd h (by simp)
  · exact absurd h (by simp)

theorem parseDeviceNameChars_complete (cs : List Char) (i : Nat) (r : CoreRange)
    (m : DeviceMode) (h : MatchesGrammar cs i r m) :
    parseDeviceNameChars cs = .ok (i, r, m) := by
  cases h with
  | multi ds hne hdig =>
    have h := takeWhile_append_eq Char.isDigit ds [] hdig (by intro c hc; cases hc)
    rw [List.append_nil] at h
    simp [parseDeviceNameChars, h.1, h.2, hne, parseCoreSpec_nil]
  | single ds pe hne hdig hne2 hdig2 =>
    have h := takeWhile_append_eq Char.isDigit ds ('p' :: 'e' :: pe) hdig
      (by intro c hc; injection hc with hc; subst hc; decide)
    simp [parseDeviceNameChars, h.1, h.2, hne, parseCoreSpec_single pe hne2 hdig2]
  | fusion ds a b hne hdig hnea hdiga hneb hdigb hlt =>
    have h := takeWhile_append_eq Char.isDigit ds ('p' :: 'e' :: (a ++ '-' :: b)) hdig
      (by intro c hc; injection hc with hc; subst hc; decide)
    simp [parseDeviceNameChars, h.1, h.2, hne,
      parseCoreSpec_fusion a b hnea hdiga hneb hdigb hlt]

theorem parseDeviceNameChars_sound (cs : List Char) (i : Nat) (r : CoreRange)
    (m : DeviceMode) (h : parseDeviceNameChars cs = .ok (i, r, m)) :
    MatchesGrammar cs i r m := by
  unfold parseDeviceNameChars at h
  split at h
  case _ rest =>
    split at h
    · exact absurd h (by simp)
    case _ hne =>
      have hds : rest.takeWhile Char.isDigit ≠ [] := by simpa using hne
      have hdig : ∀ c ∈ rest.takeWhile Char.isDigit, c.isDigit = true :=
        fun c hc => List.mem_takeWhile_imp hc
      have hsplit : rest.takeWhile Char.isDigit ++ rest.dropWhile Char.isDigit = rest :=
        List.takeWhile_append_dropWhile Char.isDigit rest
      split at h
      case _ r2 m2 hspec =>
        injection h with h
        injection h with h1 h2
        injection h2 with h2 h3
        subst h1 h2 h3
        rcases parseCoreSpec_sound _ _ _ hspec with
          ⟨hnil, hr, hm⟩ | ⟨pe, hpe, hpedig, hcs, hr, hm⟩ |
          ⟨a, b, ha, hadig, hb, hbdig, hlt, hcs, hr, hm⟩
        · subst hr hm
          rw [hnil, List.append_nil] at hsplit
          rw [hsplit]
          refine .multi rest ?_ ?_
          · rw [← hsplit]
            exact hds
          · intro c hc
            rw [← hsplit] at hc
            exact hdig c hc
        · subst hr hm
          rw [hcs] at hsplit
          nth_rewrite 1 [← hsplit]
          exact .single _ pe hds hdig hpe hpedig
        · subst hr hm
          rw [hcs] at hsplit
          nth_rewrite 1 [← hsplit]
          exact .fusion _ a b hds hdig ha hadig hb hbdig hlt
      · exact absurd h (by simp)
  · exact absurd h (by simp)

theorem parseDeviceNameChars_cases (cs : List Char) :
    (∃ v, parseDeviceNameChars cs = .ok v) ∨
    parseDeviceNameChars cs = .error .invalid_input := by
  unfold parseDeviceNameChars
  split
  · split
    · right; rfl
    · split
      · left; exact ⟨_, rfl⟩
      · right; rfl
  · right; rfl

/-- C2: a well-formed device-file name parses under the §6 grammar to exactly
the `(device_index, core_range, mode)` triple the grammar denotes; every
string not matching the grammar fails with `invalid_input`; and on the §8
scenario topology, `furiosa_device_get_by_filename "npu0pe1-2"` returns the
`Fusion` file over cores 1-2 of device 0. -/
theorem device_file_name_grammar (s : String) :
    (∀ i r m, MatchesGrammar s.toList i r m →
      parseDeviceName s = .ok { device_index := i, core_range := r, path := s, mode := m }) ∧
    ((¬ ∃ i r m, MatchesGrammar s.toList i r m) →
      parseDeviceName s = .error .invalid_input) ∧
    furiosa_device_get_by_filename scenarioSource "npu0pe1-2" =
      .ok { device_index := 0, core_range := .range 1 2, path := "npu0pe1-2",
            mode := .fusion } := by
  refine ⟨fun i r m hm => ?_, fun hno => ?_, by rfl⟩
  · unfold parseDeviceName
    rw [parseDeviceNameChars_complete s.toList i r m hm]
  · rcases parseDeviceNameChars_cases s.toList with ⟨⟨i, r, m⟩, hok⟩ | herr
    · exact absurd ⟨i, r, m, parseDeviceNameChars_sound s.toList i r m hok⟩ hno
    · unfold parseDeviceName
      rw [herr]

/-- C2 witness: `"npu0pe1-2"` matches the grammar and parses to the `Fusion`
file over cores 1-2 of device 0, and `"bogus"` matches no grammar production
and is rejected as `invalid_input`. -/
theorem device_file_name_grammar_witness :
    parseDeviceName "npu0pe1-2" =
      .ok { device_index := 0, core_range := .range 1 2, path := "npu0pe1-2",
            mode := .fusion } ∧
    parseDeviceName "bogus" = .error .invalid_input := by
  constructor
  · have hm : MatchesGrammar ("npu0pe1-2".toList) (decodeDigits ['0'])
        (.range (decodeDigits ['1']) (decodeDigits ['2'])) .fusion := by
      have := MatchesGrammar.fusion ['0'] ['1'] ['2'] (by decide) (by decide)
        (by decide) (by decide) (by decide) (by decide) (by decide)
      exact this
    have := (device_file_name_grammar "npu0pe1-2").1 _ _ _ hm
    simpa using this
  · refine (device_file_name_grammar "bogus").2.1 ?_
    rintro ⟨i, r, m, hm⟩
    cases hm

/-- Modelled from the spec: `furiosa_device_all_core_status_get` — the batch
form of the per-core query, computed against one snapshot, ascending by core
index. -/
def furiosa_device_all_core_status_get (src : TopologySource) (d : Device) :
    Except error_code (List (Nat × CoreStatus)) :=
  .ok ((List.range d.core_num).map (fun c => (c, coreStatusOf src d c)))

/-- C3: the batch status query returns one pair per core of the device, in
strictly ascending core order, and — computed against the same topology
snapshot — each paired status equals the result of the individual per-core query. -/
theorem all_core_status_agrees (src : TopologySource) (d : Device) :
    ∃ l, furiosa_device_all_core_status_get src d = .ok l ∧
      l.map Prod.fst = List.range d.core_num ∧
      l.Pairwise (fun p q => p.1 < q.1) ∧
      (∀ p ∈ l, furiosa_device_core_status_get src d p.1 = .ok p.2) ∧
      (∀ c, c < d.core_num → (c, coreStatusOf src d c) ∈ l) := by
  refine ⟨_, rfl, ?_, ?_, ?_, ?_⟩
  · rw [List.map_map]
    exact List.map_id (List.range d.core_num)
  · rw [List.pairwise_map]
    exact (List.pairwise_lt_range d.core_num).imp (fun h => h)
  · intro p hp
    rcases List.mem_map.mp hp with ⟨c, hc, hpeq⟩
    have hlt : c < d.core_num := List.mem_range.mp hc
    subst hpeq
    simp [furiosa_device_core_status_get, hlt]
  · intro c hlt
    exact List.mem_map.mpr ⟨c, List.mem_range.mpr hlt, rfl⟩

/-- C3 witness: on the §8 scenario the batch query pairs core 1 with
`occupied`, and its individual query agrees. -/
theorem all_core_status_agrees_witness :
    ∃ l, furiosa_device_all_core_status_get scenarioSource npu0 = .ok l ∧
      (1, CoreStatus.occupied) ∈ l ∧
      furiosa_device_core_status_get scenarioSource npu0 1 = .ok .occupied := by
  obtain ⟨l, hok, _, _, hagree, hmem⟩ := all_core_status_agrees scenarioSource npu0
  have h1 : (1, coreStatusOf scenarioSource npu0 1) ∈ l := hmem 1 (by decide)
  have hstat : coreStatusOf scenarioSource npu0 1 = .occupied := by decide
  rw [hstat] at h1
  exact ⟨l, hok, h1, hagree _ h1⟩

/-- Modelled from the spec: `furiosa_device_core_num_get` — the dense core
count of the device. -/
def furiosa_device_core_num_get (d : Device) : Except error_code Nat :=
  .ok d.core_num

/-- Modelled from the spec: `furiosa_device_core_ids_get` — the ordered core
indices `0 .. core_num - 1`. -/
def furiosa_device_core_ids_get (d : Device) : Except error_code (List Nat) :=
  .ok (List.range d.core_num)

/-- Modelled from the spec: `furiosa_device_index_get`. -/
def furiosa_device_index_get (d : Device) : Except error_code Nat :=
  .ok d.index

/-- Modelled from the spec: `furiosa_device_arch_get`. -/
def furiosa_device_arch_get (d : Device) : Except error_code Arch :=
  .ok d.arch

/-- Modelled from the spec: `furiosa_device_liveness_get`. -/
def furiosa_device_liveness_get (d : Device) : Except error_code Bool :=
  .ok d.alive

/-- Modelled from the spec: `furiosa_device_error_states_get` — the
insertion-ordered error-state counters. -/
def furiosa_device_error_states_get (d : Device) : Except error_code (List (String × Nat)) :=
  .ok d.error_states

/-- Modelled from the spec: `furiosa_device_numa_node_get` — fails with
`unsupported_error` on a platform that exposes no NUMA node. -/
def furiosa_device_numa_node_get (d : Device) : Except error_code Nat :=
  match d.numa_node with
  | some n => .ok n
  | none => .error .unsupported_error

/-- Modelled from the spec: `furiosa_device_name_get` — the device name
(e.g., `npu0`). -/
def furiosa_device_name_get (d : Device) : Except error_code String :=
  .ok d.name

/-- Modelled from the spec: `furiosa_device_serial_number_get`. -/
def furiosa_device_serial_number_get (d : Device) : Except error_code String :=
  .ok d.serial_number

/-- Modelled from the spec: `furiosa_device_uuid_get`. -/
def furiosa_device_uuid_get (d : Device) : Except error_code String :=
  .ok d.uuid

/-- Modelled from the spec: `furiosa_device_firmware_version_get`. -/
def furiosa_device_firmware_version_get (d : Device) : Except error_code String :=
  .ok d.firmware_version

/-- Modelled from the spec: `furiosa_device_driver_version_get`. -/
def furiosa_device_driver_version_get (d : Device) : Except error_code String :=
  .ok d.driver_version

/-- Modelled from the spec: `furiosa_device_pci_bus_number_get`. -/
def furiosa_device_pci_bus_number_get (d : Device) : Except error_code String :=
  .ok d.pci_bus_number

/-- Modelled from the spec: `furiosa_device_pci_dev_id_get`. -/
def furiosa_device_pci_dev_id_get (d : Device) : Except error_code String :=
  .ok d.pci_dev_id

/-- Modelled from the spec: `furiosa_device_heartbeat_get` — the uptime
heartbeat counter of the device. -/
def furiosa_device_heartbeat_get (d : Device) : Except error_code Nat :=
  .ok d.heartbeat

/-- Modelled from the spec: the per-file §3 validity check used by the file
listing — ranges lie within `[0, core_num)`, a `Single` file spans exactly one
core, a `Fusion` file spans at least two contiguous cores, a `MultiCore` file
is the `all` range. -/
def fileValid (n : Nat) (f : DeviceFile) : Bool :=
  (match f.core_range with
   | .all => true
   | .range s e => s ≤ e && e < n) &&
  (match f.mode, f.core_range with
   | .single, .range s e => s == e
   | .single, .all => n == 1
   | .fusion, .range s e => s < e
   | .fusion, .all => 2 ≤ n
   | .multi_core, .all => true
   | .multi_core, .range _ _ => false)

/-- Declarative form of the §3 device-file invariants checked by `fileValid`. -/
def FileInv (n : Nat) (f : DeviceFile) : Prop :=
  (match f.core_range with
   | .all => True
   | .range s e => s ≤ e ∧ e < n) ∧
  (match f.mode, f.core_range with
   | .single, .range s e => s = e
   | .single, .all => n = 1
   | .fusion, .range s e => s < e
   | .fusion, .all => 2 ≤ n
   | .multi_core, .all => True
   | .multi_core, .range _ _ => False)

theorem fileValid_iff (n : Nat) (f : DeviceFile) :
    fileValid n f = true ↔ FileInv n f := by
  obtain ⟨di, r, p, m⟩ := f
  cases r <;> cases m <;> simp [fileValid, FileInv]

instance (n : Nat) (f : DeviceFile) : Decidable (FileInv n f) :=
  decidable_of_iff (fileValid n f = true) (fileValid_iff n f)

/-- Modelled from the spec: `furiosa_device_file_list` — return every device
file registered for the device after validating all of them, or fail
atomically with `unexpected_value_error`. -/
def furiosa_device_file_list (d : Device) : Except error_code (List DeviceFile) :=
  if d.files.all (fun f => fileValid d.core_num f) then .ok d.files
  else .error .unexpected_value_error

theorem file_list_ok_inv (d : Device) (fs : List DeviceFile)
    (h : furiosa_device_file_list d = .ok fs) :
    fs = d.files ∧ ∀ f ∈ fs, FileInv d.core_num f := by
  unfold furiosa_device_file_list at h
  split at h
  case _ hall =>
    injection h with h
    subst h
    exact ⟨rfl, fun f hf =>
      (fileValid_iff d.core_num f).mp (List.all_eq_true.mp hall f hf)⟩
  · exact absurd h (by simp)

/-- C5: the file listing either returns exactly the registered files, all of
which satisfy the §3 invariants, or fails atomically with
`unexpected_value_error` as soon as any registered file violates them; no
successful result ever drops an entry. -/
theorem file_list_validated (d : Device) :
    (∀ fs, furiosa_device_file_list d = .ok fs →
      fs = d.files ∧ ∀ f ∈ fs, FileInv d.core_num f) ∧
    ((∃ f ∈ d.files, ¬ FileInv d.core_num f) →
      furiosa_device_file_list d = .error .unexpected_value_error) := by
  constructor
  · exact fun fs hfs => file_list_ok_inv d fs hfs
  · rintro ⟨f, hf, hbad⟩
    unfold furiosa_device_file_list
    have : d.files.all (fun f => fileValid d.core_num f) = false := by
      rw [← Bool.not_eq_true, List.all_eq_true]
      intro hall
      exact hbad ((fileValid_iff d.core_num f).mp (hall f hf))
    simp [this]

/-- A scenario device carrying one invariant-violating device file: a
`Single`-mode file spanning two cores. -/
def badSingleFile : DeviceFile :=
  { device_index := 1, core_range := .range 0 1, path := "npu1pe0", mode := .single }

/-- A device whose registered file list violates the §3 invariants. -/
def badDevice : Device :=
  { index := 1, arch := .warboy, alive := true,
    name := "npu1", serial_number := "WBYB0001", uuid := "10g2x-npu1",
    firmware_version := "1.6.0", driver_version := "1.9.2",
    pci_bus_number := "0000:02", pci_dev_id := "0x1111", heartbeat := 7,
    core_num := 4, numa_node := none, error_states := [],
    files := [badSingleFile] }

/-- C5 witness: the listing of the scenario device succeeds with every §3 invariant
established, and the listing of a device carrying a two-core `Single` file
fails atomically with `unexpected_value_error`. -/
theorem file_list_validated_witness :
    (npu0.files = [npu0pe0, npu0pe1_2, npu0file] ∧
      ∀ f ∈ npu0.files, FileInv npu0.core_num f) ∧
    furiosa_device_file_list badDevice = .error .unexpected_value_error := by
  constructor
  · exact (file_list_validated npu0).1 npu0.files (by rfl)
  · exact (file_list_validated badDevice).2 ⟨badSingleFile, by decide, by decide⟩

/-- C6: the core-id query returns exactly the dense strictly ascending
sequence `0 .. core_num - 1` reported by the core-count query; whenever the
device carries its whole-device `all` file (the §3 topology invariant), every
core of that sequence is covered by at least one device file; and every core
referenced by any file of a validated listing lies within the sequence. -/
theorem core_ids_dense_and_covered (d : Device) :
    furiosa_device_core_num_get d = .ok d.core_num ∧
    furiosa_device_core_ids_get d = .ok (List.range d.core_num) ∧
    (List.range d.core_num).Pairwise (· < ·) ∧
    (∀ c, c ∈ List.range d.core_num ↔ c < d.core_num) ∧
    ((∃ f ∈ d.files, f.device_index = d.index ∧ f.core_range = .all) →
      ∀ c ∈ List.range d.core_num, ∃ f ∈ d.files, CoversCore d f c) ∧
    (∀ fs, furiosa_device_file_list d = .ok fs →
      ∀ f ∈ fs, ∀ c, CoversCore d f c → c ∈ List.range d.core_num) := by
  refine ⟨rfl, rfl, List.pairwise_lt_range d.core_num,
    fun c => List.mem_range, ?_, ?_⟩
  · rintro ⟨f, hf, hidx, hr⟩ c hc
    refine ⟨f, hf, hidx, ?_⟩
    rw [hr]
    exact List.mem_range.mp hc
  · intro fs hfs f hf c hcov
    obtain ⟨heq, hinv⟩ := file_list_ok_inv d fs hfs
    have hinvf := hinv f hf
    rcases hcov with ⟨_, hcontains⟩
    rw [List.mem_range]
    cases hr : f.core_range with
    | all =>
      rw [hr] at hcontains
      exact hcontains
    | range s e =>
      rw [hr] at hcontains
      have hbound : s ≤ e ∧ e < d.core_num := by
        have := hinvf.1
        rw [hr] at this
        exact this
      exact Nat.lt_of_le_of_lt hcontains.2 hbound.2

/-- C6 witness: the §8 scenario device has core ids `[0, 1, 2, 3]`, each
covered by at least one of its device files. -/
theorem core_ids_dense_and_covered_witness :
    furiosa_device_core_ids_get npu0 = .ok [0, 1, 2, 3] ∧
    ∀ c ∈ List.range npu0.core_num, ∃ f ∈ npu0.files, CoversCore npu0 f c := by
  constructor
  · exact (core_ids_dense_and_covered npu0).2.1
  · exact (core_ids_dense_and_covered npu0).2.2.2.2.1
      ⟨npu0file, by decide, rfl, rfl⟩

/-- Modelled from the spec: the order on devices used by the registry —
ascending device index. -/
def deviceLe (a b : Device) : Bool := a.index ≤ b.index

/-- Modelled from the spec: `furiosa_device_list` — enumerate the live
devices in ascending index order; only an unreachable Topology Source is
`device_not_found`, zero devices is a valid empty result. -/
def furiosa_device_list (src : TopologySource) : Except error_code (List Device) :=
  if src.reachable then .ok (src.devices.mergeSort deviceLe)
  else .error .device_not_found

/-- C7: listing devices returns a permutation of the enumerated live devices,
sorted ascending by index (strictly, when indices are unique as §3 requires);
a reachable source with zero devices yields the empty result, and only an
unreachable source yields `device_not_found`. -/
theorem list_devices_sorted (src : TopologySource) :
    (src.reachable = false → furiosa_device_list src = .error .device_not_found) ∧
    (src.reachable = true → ∃ l, furiosa_device_list src = .ok l ∧
      l.Perm src.devices ∧
      l.Pairwise (fun a b => a.index ≤ b.index) ∧
      (src.devices.Pairwise (fun a b => a.index ≠ b.index) →
        l.Pairwise (fun a b => a.index < b.index))) ∧
    (src.reachable = true → src.devices = [] → furiosa_device_list src = .ok []) := by
  refine ⟨fun hdown => ?_, fun hup => ?_, fun hup hnil => ?_⟩
  · simp [furiosa_device_list, hdown]
  · refine ⟨src.devices.mergeSort deviceLe, by simp [furiosa_device_list, hup], ?_, ?_, ?_⟩
    · exact List.mergeSort_perm src.devices deviceLe
    · have hs : (src.devices.mergeSort deviceLe).Pairwise (fun a b => deviceLe a b = true) :=
        List.sorted_mergeSort
          (fun a b c hab hbc => by
            simp only [deviceLe, decide_eq_true_eq] at *
            exact Nat.le_trans hab hbc)
          (fun a b => by
            simp only [deviceLe]
            rcases Nat.le_total a.index b.index with h | h <;> simp [h])
          src.devices
      exact hs.imp (fun h => by simpa [deviceLe] using h)
    · intro hne
      have hperm := List.mergeSort_perm src.devices deviceLe
      have hne2 : (src.devices.mergeSort deviceLe).Pairwise
          (fun a b => a.index ≠ b.index) := by
        rw [List.Perm.pairwise_iff (fun h => Ne.symm h) hperm]
        exact hne
      have hs : (src.devices.mergeSort deviceLe).Pairwise (fun a b => deviceLe a b = true) :=
        List.sorted_mergeSort
          (fun a b c hab hbc => by
            simp only [deviceLe, decide_eq_true_eq] at *
            exact Nat.le_trans hab hbc)
          (fun a b => by
            simp only [deviceLe]
            rcases Nat.le_total a.index b.index with h | h <;> simp [h])
          src.devices
      have hle : (src.devices.mergeSort deviceLe).Pairwise
          (fun a b => a.index ≤ b.index) :=
        hs.imp (fun h => by simpa [deviceLe] using h)
      exact (hle.and hne2).imp (fun h => Nat.lt_of_le_of_ne h.1 h.2)
  · simp [furiosa_device_list, hup, hnil]

/-- A Topology Source that cannot be reached. -/
def unreachableSource : TopologySource :=
  { reachable := false, devices := [], locks := [] }

/-- A reachable Topology Source reporting zero devices. -/
def emptySource : TopologySource :=
  { reachable := true, devices := [], locks := [] }

/-- C7 witness: an unreachable source fails with `device_not_found`, a
reachable source with zero devices succeeds with the empty listing, and the
§8 scenario source lists its one device. -/
theorem list_devices_sorted_witness :
    furiosa_device_list unreachableSource = .error .device_not_found ∧
    furiosa_device_list emptySource = .ok [] ∧
    ∃ l, furiosa_device_list scenarioSource = .ok l ∧ l.Perm [npu0] := by
  refine ⟨(list_devices_sorted unreachableSource).1 rfl,
    (list_devices_sorted emptySource).2.2 rfl rfl, ?_⟩
  obtain ⟨l, hok, hperm, _, _⟩ := (list_devices_sorted scenarioSource).2.1 rfl
  exact ⟨l, hok, hperm⟩

/-- The device files of `d` that cover core `c` and are currently lock-held. -/
def heldCovering (src : TopologySource) (d : Device) (c : Nat) : List DeviceFile :=
  d.files.filter (fun f => coversCore d f c && (lockHolder src f.path).isSome)

/-- The device file with the lexicographically lowest path in a list; on a
path tie the earlier entry wins. -/
def minByPath : List DeviceFile → Option DeviceFile
  | [] => none
  | f :: fs =>
    match minByPath fs with
    | none => some f
    | some g => if f.path ≤ g.path then some f else some g

theorem minByPath_eq_none : ∀ (l : List DeviceFile), minByPath l = none ↔ l = []
  | [] => by simp [minByPath]
  | f :: fs => by
    rw [minByPath]
    cases h : minByPath fs <;> simp
    split <;> simp

theorem minByPath_mem : ∀ (l : List DeviceFile) (m : DeviceFile),
    minByPath l = some m → m ∈ l
  | [], m => by simp [minByPath]
  | f :: fs, m => by
    intro hm
    rw [minByPath] at hm
    cases h : minByPath fs with
    | none =>
      simp only [h] at hm
      injection hm with hm
      subst hm
      exact List.mem_cons_self f fs
    | some g =>
      simp only [h] at hm
      split at hm <;> injection hm with hm <;> subst hm
      · exact List.mem_cons_self _ fs
      · exact List.mem_cons_of_mem f (minByPath_mem fs _ h)

theorem minByPath_le : ∀ (l : List DeviceFile) (m : DeviceFile),
    minByPath l = some m → ∀ g ∈ l, m.path ≤ g.path
  | [], m => by simp [minByPath]
  | f :: fs, m => by
    intro hm g hg
    rw [minByPath] at hm
    cases h : minByPath fs with
    | none =>
      simp only [h] at hm
      injection hm with hm
      subst hm
      rcases List.mem_cons.mp hg with hgf | hgm
      · rw [hgf]
      · exact absurd ((minByPath_eq_none fs).mp h ▸ hgm) (List.not_mem_nil g)
    | some g0 =>
      simp only [h] at hm
      have ih := minByPath_le fs g0 h
      split at hm <;> injection hm with hm <;> subst hm
      · rename_i hle
        rcases List.mem_cons.mp hg with hgf | hgm
        · rw [hgf]
        · exact le_trans hle (ih g hgm)
      · rename_i hnle
        rcases List.mem_cons.mp hg with hgf | hgm
        · rw [hgf]
          exact le_of_not_le hnle
        · exact ih g hgm

/-- Modelled from the spec: `furiosa_device_core_occupied_fd_get` — the
descriptor identifier occupying a core; when several held device files cover
the core, the holder of the lexicographically lowest path is reported; a core
that is not occupied is `unavailable_error`. -/
def furiosa_device_core_occupied_fd_get (src : TopologySource) (d : Device) (c : Nat) :
    Except error_code String :=
  if c < d.core_num then
    if d.alive then
      match minByPath (heldCovering src d c) with
      | some f =>
        match lockHolder src f.path with
        | some owner => .ok owner
        | none => .error .unavailable_error
      | none => .error .unavailable_error
    else .error .unavailable_error
  else .error .invalid_input

/-- C4: whenever the per-core status is `occupied`, the occupied-fd query
succeeds with the holder of the lexicographically lowest lock-held covering
device-file path (a defined tie-break, not an error); whenever the status is
`available` or `unavailable`, it fails with `unavailable_error`. -/
theorem core_occupied_fd_resolution (src : TopologySource) (d : Device) (c : Nat) :
    (furiosa_device_core_status_get src d c = .ok .occupied →
      ∃ f owner, f ∈ d.files ∧ CoversCore d f c ∧
        lockHolder src f.path = some owner ∧
        (∀ g ∈ d.files, CoversCore d g c → (lockHolder src g.path).isSome = true →
          f.path ≤ g.path) ∧
        furiosa_device_core_occupied_fd_get src d c = .ok owner) ∧
    ((furiosa_device_core_status_get src d c = .ok .available ∨
      furiosa_device_core_status_get src d c = .ok .unavailable) →
      furiosa_device_core_occupied_fd_get src d c = .error .unavailable_error) := by
  constructor
  · intro hstat
    have hc : c < d.core_num := by
      by_contra hnc
      rw [furiosa_device_core_status_get, if_neg hnc] at hstat
      exact absurd hstat (by simp)
    rw [furiosa_device_core_status_get, if_pos hc] at hstat
    injection hstat with hstat
    cases halive : d.alive with
    | false =>
      rw [coreStatusOf, halive] at hstat
      exact absurd hstat (by simp)
    | true =>
      rw [coreStatusOf, halive] at hstat
      simp only [Bool.not_true, Bool.false_eq_true, if_false] at hstat
      have hlocked : coreLocked src d c = true := by
        by_contra hnl
        rw [Bool.not_eq_true] at hnl
        rw [hnl] at hstat
        exact absurd hstat (by simp)
      obtain ⟨f0, hf0, hcov0, hheld0⟩ := (coreLocked_iff src d c).mp hlocked
      have hf0mem : f0 ∈ heldCovering src d c := by
        rw [heldCovering, List.mem_filter]
        exact ⟨hf0, by rw [Bool.and_eq_true, coversCore_iff]; exact ⟨hcov0, hheld0⟩⟩
      have hne : heldCovering src d c ≠ [] := List.ne_nil_of_mem hf0mem
      obtain ⟨m, hm⟩ : ∃ m, minByPath (heldCovering src d c) = some m := by
        cases harg : minByPath (heldCovering src d c) with
        | some m => exact ⟨m, rfl⟩
        | none => exact absurd ((minByPath_eq_none _).mp harg) hne
      have hmmem : m ∈ heldCovering src d c := minByPath_mem _ m hm
      rw [heldCovering, List.mem_filter, Bool.and_eq_true, coversCore_iff] at hmmem
      obtain ⟨hmfiles, hmcov, hmheld⟩ := hmmem
      obtain ⟨owner, howner⟩ := Option.isSome_iff_exists.mp hmheld
      refine ⟨m, owner, hmfiles, hmcov, howner, ?_, ?_⟩
      · intro g hg hgcov hgheld
        have hgmem : g ∈ heldCovering src d c := by
          rw [heldCovering, List.mem_filter]
          exact ⟨hg, by rw [Bool.and_eq_true, coversCore_iff]; exact ⟨hgcov, hgheld⟩⟩
        exact minByPath_le _ m hm g hgmem
      · simp [furiosa_device_core_occupied_fd_get, hc, halive, hm, howner]
  · intro hstat
    rcases hstat with hstat | hstat
    · have hc : c < d.core_num := by
        by_contra hnc
        rw [furiosa_device_core_status_get, if_neg hnc] at hstat
        exact absurd hstat (by simp)
      rw [furiosa_device_core_status_get, if_pos hc] at hstat
      injection hstat with hstat
      cases halive : d.alive with
      | false =>
        rw [coreStatusOf, halive] at hstat
        exact absurd hstat (by simp)
      | true =>
        rw [coreStatusOf, halive] at hstat
        simp only [Bool.not_true, Bool.false_eq_true, if_false] at hstat
        have hlocked : coreLocked src d c = false := by
          cases hl : coreLocked src d c with
          | true =>
            rw [hl] at hstat
            exact absurd hstat (by simp)
          | false => rfl
        have hfilter : heldCovering src d c = [] := by
          rw [heldCovering, List.filter_eq_nil_iff]
          intro f hf hpred
          have : coreLocked src d c = true :=
            List.any_eq_true.mpr ⟨f, hf, hpred⟩
          rw [hlocked] at this
          exact absurd this (by simp)
        simp [furiosa_device_core_occupied_fd_get, hc, halive, hfilter, minByPath]
    · have hc : c < d.core_num := by
        by_contra hnc
        rw [furiosa_device_core_status_get, if_neg hnc] at hstat
        exact absurd hstat (by simp)
      rw [furiosa_device_core_status_get, if_pos hc] at hstat
      injection hstat with hstat
      cases halive : d.alive with
      | true =>
        rw [coreStatusOf, halive] at hstat
        simp only [Bool.not_true, Bool.false_eq_true, if_false] at hstat
        cases hl : coreLocked src d c with
        | true =>
          rw [hl] at hstat
          exact absurd hstat (by simp)
        | false =>
          rw [hl] at hstat
          exact absurd hstat (by simp)
      | false =>
        simp [furiosa_device_core_occupied_fd_get, hc, halive]

/-- C4 witness: on the §8 scenario, the occupied core 1 resolves to a
minimal-path holder (the `Fusion` file held by `pid:1234`), while the free
core 0 fails with `unavailable_error`. -/
theorem core_occupied_fd_resolution_witness :
    (∃ f owner, f ∈ npu0.files ∧ CoversCore npu0 f 1 ∧
      lockHolder scenarioSource f.path = some owner ∧
      (∀ g ∈ npu0.files, CoversCore npu0 g 1 →
        (lockHolder scenarioSource g.path).isSome = true → f.path ≤ g.path) ∧
      furiosa_device_core_occupied_fd_get scenarioSource npu0 1 = .ok owner) ∧
    furiosa_device_core_occupied_fd_get scenarioSource npu0 0 =
      .error .unavailable_error :=
  ⟨(core_occupied_fd_resolution scenarioSource npu0 1).1 (by rfl),
   (core_occupied_fd_resolution scenarioSource npu0 0).2 (Or.inl (by rfl))⟩

/-- Modelled from the spec: `furiosa_device_get_by_index` — fetch one live
device by index, `device_not_found` when absent or when the Topology Source
is unreachable. -/
def furiosa_device_get_by_index (src : TopologySource) (idx : Nat) :
    Except error_code Device :=
  if src.reachable then
    match src.devices.find? (fun d => d.index == idx) with
    | some d => .ok d
    | none => .error .device_not_found
  else .error .device_not_found

/-- Modelled from the spec: the legacy `Arch` enumeration of
`bindings/c/include/device.h` (`WarboyA0`, `WarboyB0`, `Renegade`, `U250`). -/
inductive LegacyArch
  | WarboyA0
  | WarboyB0
  | Renegade
  | U250
  deriving DecidableEq

/-- Numeric value of each legacy `Arch` constructor in the C enum. -/
def LegacyArch.code : LegacyArch → Nat
  | .WarboyA0 => 0
  | .WarboyB0 => 1
  | .Renegade => 2
  | .U250 => 3

/-- The architecture denoted by each legacy `Arch` constructor. -/
def LegacyArch.toCurrent : LegacyArch → Arch
  | .WarboyA0 => .warboy_a0
  | .WarboyB0 => .warboy
  | .Renegade => .renegade
  | .U250 => .u250

/-- Modelled from the spec: the legacy capitalised `CoreStatus` enumeration
of `bindings/c/include/device.h`. -/
inductive LegacyCoreStatus
  | Available
  | Occupied
  | Unavailable
  deriving DecidableEq

/-- Numeric value of each legacy `CoreStatus` constructor in the C enum. -/
def LegacyCoreStatus.code : LegacyCoreStatus → Nat
  | .Available => 0
  | .Occupied => 1
  | .Unavailable => 2

/-- The status denoted by each legacy `CoreStatus` constructor. -/
def LegacyCoreStatus.toCurrent : LegacyCoreStatus → CoreStatus
  | .Available => .available
  | .Occupied => .occupied
  | .Unavailable => .unavailable

/-- Modelled from the spec: legacy `list_devices` of
`bindings/c/include/device.h`, same contract as `furiosa_device_list`. -/
def list_devices (src : TopologySource) : Except error_code (List Device) :=
  match src.reachable with
  | true => .ok (src.devices.mergeSort deviceLe)
  | false => .error .device_not_found

/-- Modelled from the spec: legacy `get_device`, same contract as
`furiosa_device_get_by_index`. -/
def get_device (src : TopologySource) (idx : Nat) : Except error_code Device :=
  match src.reachable with
  | false => .error .device_not_found
  | true =>
    match src.devices.find? (fun d => d.index == idx) with
    | some d => .ok d
    | none => .error .device_not_found

/-- Modelled from the spec: legacy `get_device_core_status`, same contract as
`furiosa_device_core_status_get`. -/
def get_device_core_status (src : TopologySource) (d : Device) (c : Nat) :
    Except error_code CoreStatus :=
  if d.core_num ≤ c then .error .invalid_input
  else .ok (coreStatusOf src d c)

/-- Modelled from the spec: legacy `get_device_core_occupied_fd`, same
contract as `furiosa_device_core_occupied_fd_get`. -/
def get_device_core_occupied_fd (src : TopologySource) (d : Device) (c : Nat) :
    Except error_code String :=
  if c < d.core_num then
    if d.alive = false then .error .unavailable_error
    else
      match minByPath (heldCovering src d c) with
      | some f =>
        match lockHolder src f.path with
        | some owner => .ok owner
        | none => .error .unavailable_error
      | none => .error .unavailable_error
  else .error .invalid_input

/-- Modelled from the spec: legacy `get_device_all_core_status`, same
contract as `furiosa_device_all_core_status_get`. -/
def get_device_all_core_status (src : TopologySource) (d : Device) :
    Except error_code (List (Nat × CoreStatus)) :=
  .ok ((List.range d.core_num).map (fun c => (c, coreStatusOf src d c)))

/-- Modelled from the spec: legacy `get_device_core_num`. -/
def get_device_core_num (d : Device) : Except error_code Nat :=
  .ok d.core_num

/-- Modelled from the spec: legacy `get_device_cores`. -/
def get_device_cores (d : Device) : Except error_code (List Nat) :=
  .ok (List.range d.core_num)

/-- Modelled from the spec: legacy `get_device_files`, same contract as
`furiosa_device_file_list`. -/
def get_device_files (d : Device) : Except error_code (List DeviceFile) :=
  if d.files.all (fun f => fileValid d.core_num f) = true then .ok d.files
  else .error .unexpected_value_error

/-- Modelled from the spec: legacy `get_device_numanode`, same contract as
`furiosa_device_numa_node_get`. -/
def get_device_numanode (d : Device) : Except error_code Nat :=
  d.numa_node.elim (.error .unsupported_error) .ok

/-- Modelled from the spec: legacy `get_device_index`. -/
def get_device_index (d : Device) : Except error_code Nat :=
  .ok d.index

/-- Modelled from the spec: legacy `get_device_arch`. -/
def get_device_arch (d : Device) : Except error_code Arch :=
  .ok d.arch

/-- Modelled from the spec: legacy `get_device_aliveness`, same contract as
`furiosa_device_liveness_get`. -/
def get_device_aliveness (d : Device) : Except error_code Bool :=
  .ok d.alive

/-- Modelled from the spec: legacy `get_device_error_states`, same contract
as `furiosa_device_error_states_get`. -/
def get_device_error_states (d : Device) : Except error_code (List (String × Nat)) :=
  .ok d.error_states

/-- Modelled from the spec: legacy `get_device_name`, same contract as
`furiosa_device_name_get`. -/
def get_device_name (d : Device) : Except error_code String :=
  .ok d.name

/-- Modelled from the spec: legacy `get_device_serial_number`. -/
def get_device_serial_number (d : Device) : Except error_code String :=
  .ok d.serial_number

/-- Modelled from the spec: legacy `get_device_uuid`. -/
def get_device_uuid (d : Device) : Except error_code String :=
  .ok d.uuid

/-- Modelled from the spec: legacy `get_device_firmware_version`. -/
def get_device_firmware_version (d : Device) : Except error_code String :=
  .ok d.firmware_version

/-- Modelled from the spec: legacy `get_device_driver_version`. -/
def get_device_driver_version (d : Device) : Except error_code String :=
  .ok d.driver_version

/-- Modelled from the spec: legacy `get_device_pci_bus_number`. -/
def get_device_pci_bus_number (d : Device) : Except error_code String :=
  .ok d.pci_bus_number

/-- Modelled from the spec: legacy `get_device_pci_dev_id`. -/
def get_device_pci_dev_id (d : Device) : Except error_code String :=
  .ok d.pci_dev_id

/-- Modelled from the spec: legacy `get_device_heartbeat`, same contract as
`furiosa_device_heartbeat_get`. -/
def get_device_heartbeat (d : Device) : Except error_code Nat :=
  .ok d.heartbeat

/-- Numeric value of each current `DeviceMode` constructor in the C enum. -/
def DeviceMode.code : DeviceMode → Nat
  | .single => 0
  | .fusion => 1
  | .multi_core => 2

/-- Modelled from the spec: the current `CoreRangeType` enumeration of
`cbinding/include/device.h` (`all`, `range`). -/
inductive CoreRangeType
  | all
  | range
  deriving DecidableEq

/-- Numeric value of each current `CoreRangeType` constructor in the C enum. -/
def CoreRangeType.code : CoreRangeType → Nat
  | .all => 0
  | .range => 1

/-- The `range_type` field of the C `CoreRange` struct denoted by a core
range. -/
def CoreRange.range_type : CoreRange → CoreRangeType
  | .all => .all
  | .range _ _ => .range

/-- Modelled from the spec: the legacy capitalised `DeviceMode` enumeration
of `bindings/c/include/device.h` (`Single`, `Fusion`, `MultiCore`). -/
inductive LegacyDeviceMode
  | Single
  | Fusion
  | MultiCore
  deriving DecidableEq

/-- Numeric value of each legacy `DeviceMode` constructor in the C enum. -/
def LegacyDeviceMode.code : LegacyDeviceMode → Nat
  | .Single => 0
  | .Fusion => 1
  | .MultiCore => 2

/-- The mode denoted by each legacy `DeviceMode` constructor. -/
def LegacyDeviceMode.toCurrent : LegacyDeviceMode → DeviceMode
  | .Single => .single
  | .Fusion => .fusion
  | .MultiCore => .multi_core

/-- Modelled from the spec: the legacy capitalised `CoreRangeType`
enumeration of `bindings/c/include/device.h` (`All`, `Range`). -/
inductive LegacyCoreRangeType
  | All
  | Range
  deriving DecidableEq

/-- Numeric value of each legacy `CoreRangeType` constructor in the C enum. -/
def LegacyCoreRangeType.code : LegacyCoreRangeType → Nat
  | .All => 0
  | .Range => 1

/-- The range type denoted by each legacy `CoreRangeType` constructor. -/
def LegacyCoreRangeType.toCurrent : LegacyCoreRangeType → CoreRangeType
  | .All => .all
  | .Range => .range

/-- C9: for every operation present in both header revisions (all twenty-one
of them) and every input, the legacy-named operation and the furiosa-style
operation implement the same logical contract — identical error codes and
identical success values over the same topology state — and each of the four
differently cased enumerations (`CoreStatus`, `Arch`, `DeviceMode`,
`CoreRangeType`) denotes the same values in the same declaration order. -/
theorem legacy_and_current_bindings_agree :
    (∀ src, list_devices src = furiosa_device_list src) ∧
    (∀ src idx, get_device src idx = furiosa_device_get_by_index src idx) ∧
    (∀ src d c, get_device_core_status src d c = furiosa_device_core_status_get src d c) ∧
    (∀ src d c,
      get_device_core_occupied_fd src d c = furiosa_device_core_occupied_fd_get src d c) ∧
    (∀ src d, get_device_all_core_status src d = furiosa_device_all_core_status_get src d) ∧
    (∀ d, get_device_core_num d = furiosa_device_core_num_get d) ∧
    (∀ d, get_device_cores d = furiosa_device_core_ids_get d) ∧
    (∀ d, get_device_files d = furiosa_device_file_list d) ∧
    (∀ d, get_device_numanode d = furiosa_device_numa_node_get d) ∧
    (∀ d, get_device_index d = furiosa_device_index_get d) ∧
    (∀ d, get_device_arch d = furiosa_device_arch_get d) ∧
    (∀ d, get_device_aliveness d = furiosa_device_liveness_get d) ∧
    (∀ d, get_device_error_states d = furiosa_device_error_states_get d) ∧
    (∀ d, get_device_name d = furiosa_device_name_get d) ∧
    (∀ d, get_device_serial_number d = furiosa_device_serial_number_get d) ∧
    (∀ d, get_device_uuid d = furiosa_device_uuid_get d) ∧
    (∀ d, get_device_firmware_version d = furiosa_device_firmware_version_get d) ∧
    (∀ d, get_device_driver_version d = furiosa_device_driver_version_get d) ∧
    (∀ d, get_device_pci_bus_number d = furiosa_device_pci_bus_number_get d) ∧
    (∀ d, get_device_pci_dev_id d = furiosa_device_pci_dev_id_get d) ∧
    (∀ d, get_device_heartbeat d = furiosa_device_heartbeat_get d) ∧
    (∀ s : LegacyCoreStatus, s.toCurrent.code = s.code) ∧
    (∀ s t : LegacyCoreStatus, s.toCurrent = t.toCurrent → s = t) ∧
    (∀ a : LegacyArch, a.toCurrent.code = a.code) ∧
    (∀ a b : LegacyArch, a.toCurrent = b.toCurrent → a = b) ∧
    (∀ m : LegacyDeviceMode, m.toCurrent.code = m.code) ∧
    (∀ m k : LegacyDeviceMode, m.toCurrent = k.toCurrent → m = k) ∧
    (∀ t : LegacyCoreRangeType, t.toCurrent.code = t.code) ∧
    (∀ t u : LegacyCoreRangeType, t.toCurrent = u.toCurrent → t = u) := by
  refine ⟨?_, ?_, ?_, ?_, fun src d => rfl, fun d => rfl, fun d => rfl, fun d => rfl,
    ?_, fun d => rfl, fun d => rfl, fun d => rfl, fun d => rfl,
    fun d => rfl, fun d => rfl, fun d => rfl, fun d => rfl,
    fun d => rfl, fun d => rfl, fun d => rfl, fun d => rfl,
    fun s => by cases s <;> rfl,
    fun s t h => by cases s <;> cases t <;> first | rfl | exact absurd h (by decide),
    fun a => by cases a <;> rfl,
    fun a b h => by cases a <;> cases b <;> first | rfl | exact absurd h (by decide),
    fun m => by cases m <;> rfl,
    fun m k h => by cases m <;> cases k <;> first | rfl | exact absurd h (by decide),
    fun t => by cases t <;> rfl,
    fun t u h => by cases t <;> cases u <;> first | rfl | exact absurd h (by decide)⟩
  · intro src
    cases h : src.reachable <;> simp [list_devices, furiosa_device_list, h]
  · intro src idx
    cases h : src.reachable <;> simp [get_device, furiosa_device_get_by_index, h]
  · intro src d c
    by_cases h : c < d.core_num
    · rw [get_device_core_status, if_neg (by omega), furiosa_device_core_status_get, if_pos h]
    · rw [get_device_core_status, if_pos (by omega), furiosa_device_core_status_get, if_neg h]
  · intro src d c
    by_cases hc : c < d.core_num
    · cases halive : d.alive <;>
        simp [get_device_core_occupied_fd, furiosa_device_core_occupied_fd_get, hc, halive]
    · simp [get_device_core_occupied_fd, furiosa_device_core_occupied_fd_get, hc]
  · intro d
    cases h : d.numa_node <;> simp [get_device_numanode, furiosa_device_numa_node_get, h]

/-- C9 witness: on the §8 scenario both listing entry points and both name
accessors agree concretely, and the legacy status and mode constructor
mappings are applied at concrete pairs. -/
theorem legacy_and_current_bindings_agree_witness :
    list_devices scenarioSource = furiosa_device_list scenarioSource ∧
    get_device_name npu0 = furiosa_device_name_get npu0 ∧
    LegacyCoreStatus.Available = LegacyCoreStatus.Available ∧
    LegacyDeviceMode.Fusion = LegacyDeviceMode.Fusion := by
  obtain ⟨h1, _, _, _, _, _, _, _, _, _, _, _, _, hname, _, _, _, _, _, _, _,
    _, hsinj, _, _, _, hminj, _, _⟩ :=
    legacy_and_current_bindings_agree
  exact ⟨h1 scenarioSource, hname npu0,
    hsinj .Available .Available rfl, hminj .Fusion .Fusion rfl⟩
